import Mathlib

/-!
# Verification of `sqliter`: connection builder and schema migrations

Shallow embedding of `src/migrations.rs`, `src/error.rs` and `src/builder.rs`.

* The SQLite database state visible to this library is the pair of pragma
  slots (`application_id`, `user_version`), the `foreign_keys` flag and the
  opaque user content (modelled as rows of integers).
* A migration procedure `Fn(&rusqlite::Connection) -> Result<(), E>` mutates
  the content it is run against and may additionally report a failure; its
  statements take effect whether or not it subsequently fails, so it is
  modelled as `Content → Content × Option E`.
* `Migrations` stores its migrations in a `BinaryHeap<Reverse<Migration>>`;
  the backing vector and `BinaryHeap::push`/`sift_up` are modelled exactly,
  because `Migrations::iter` visits the backing vector in stored order.
* `ConnectionBuilder::setup` is modelled as a function from the persisted
  database state to an outcome together with the persisted state after the
  call (a dropped, uncommitted transaction restores the pre-transaction
  state) and the trace of migration procedures that were invoked.
-/

set_option autoImplicit false

namespace Sqliter

/-- Opaque user-visible database content: the rows a migration's SQL
statements create or delete. -/
abbrev Content := List Int

/-- The `rusqlite` connection state this library reads and writes: the two
reserved pragma slots, the foreign-key flag, and the user content. -/
structure Db where
  application_id : Int
  user_version : Int
  foreign_keys : Bool
  content : Content
deriving Repr, DecidableEq

/-- A migration procedure `Fn(&rusqlite::Connection) -> Result<(), E>`: its
statements mutate the content they run against, and it may additionally
report a failure value. -/
abbrev MigrationFn (E : Type) := Content → Content × Option E

/-- `Migration` from `migrations.rs`: a version, whether to perform it inside
the shared transaction, and the procedure itself. -/
structure Migration (E : Type) where
  version : Int
  perform_in_transaction : Bool
  migration : MigrationFn E

instance {E : Type} : Inhabited (Migration E) where
  default := ⟨0, true, fun c => (c, none)⟩

/-- The version stored at index `i` of a heap backing vector (`0` when out of
range; `sift_up` never reads out of range). -/
def versionAt {E : Type} (data : List (Migration E)) (i : Nat) : Int :=
  match data[i]? with
  | some m => m.version
  | none => 0

/-- Exchange the entries at positions `i` and `j` of the backing vector (the
net effect of Rust's `Hole` moves). -/
def listSwap {α : Type} (l : List α) (i j : Nat) : List α :=
  if hi : i < l.length then
    if hj : j < l.length then
      (l.set i l[j]).set j l[i]
    else l
  else l

/-- Rust `BinaryHeap::sift_up` on the backing vector of a max-heap of
`Reverse<Migration>`: the element at `pos` moves towards the root while it is
strictly greater than its parent in `Reverse` order, i.e. strictly smaller in
version. Recursion is driven by a fuel argument for structural recursion; the
position strictly decreases at every step, so `fuel = pos` never runs out. -/
def siftUpAux {E : Type} :
    Nat → List (Migration E) → Nat → List (Migration E)
  | 0, data, _ => data
  | fuel + 1, data, pos =>
    if 0 < pos then
      if versionAt data pos < versionAt data ((pos - 1) / 2) then
        siftUpAux fuel (listSwap data pos ((pos - 1) / 2)) ((pos - 1) / 2)
      else data
    else data

/-- `sift_up` started at position `pos` of the backing vector. -/
def siftUp {E : Type} (data : List (Migration E)) (pos : Nat) : List (Migration E) :=
  siftUpAux pos data pos

/-- Rust `BinaryHeap::push`: append the element, then sift it up from the
appended slot. -/
def heapPush {E : Type} (data : List (Migration E)) (m : Migration E) :
    List (Migration E) :=
  siftUp (data ++ [m]) data.length

/-- `Migrations` from `migrations.rs`: the backing vector of the
`BinaryHeap<Reverse<Migration<E>>>`, in its stored order. -/
structure Migrations (E : Type) where
  migrations : List (Migration E)

/-- `Migrations::new`. -/
def Migrations.new (E : Type) : Migrations E := ⟨[]⟩

/-- `Migrations::do_add_migration`. The `assert!(version > 0)` panic is
modelled as `none`. -/
def Migrations.do_add_migration {E : Type} (self : Migrations E) (version : Int)
    (perform_in_transaction : Bool) (migration : MigrationFn E) :
    Option (Migrations E) :=
  if 0 < version then
    some ⟨heapPush self.migrations ⟨version, perform_in_transaction, migration⟩⟩
  else
    none

/-- `Migrations::add`. -/
def Migrations.add {E : Type} (self : Migrations E) (version : Int)
    (migration : MigrationFn E) : Option (Migrations E) :=
  self.do_add_migration version true migration

/-- `Migrations::add_non_transactionally`. -/
def Migrations.add_non_transactionally {E : Type} (self : Migrations E)
    (version : Int) (migration : MigrationFn E) : Option (Migrations E) :=
  self.do_add_migration version false migration

/-- `Migrations::iter`: `BinaryHeap::iter` visits the backing vector in its
stored order. -/
def Migrations.iter {E : Type} (self : Migrations E) :
    List (Int × Bool × MigrationFn E) :=
  self.migrations.map fun m => (m.version, m.perform_in_transaction, m.migration)

/-- `rusqlite::ffi::ErrorCode`, reduced to what `builder.rs` inspects. -/
inductive ErrorCode where
  | CannotOpen
  | OtherCode (n : Nat)
deriving Repr, DecidableEq

/-- `rusqlite::ffi::Error`. -/
structure FfiError where
  code : ErrorCode
  extended_code : Int
deriving Repr, DecidableEq

/-- `rusqlite::Error`, reduced to the variants `builder.rs` distinguishes. -/
inductive RusqliteError where
  | SqliteFailure (err : FfiError)
  | Other (n : Nat)
deriving Repr, DecidableEq

/-- `ConnectionBuilderError` from `error.rs`. -/
inductive ConnectionBuilderError (E : Type) where
  | UnexpectedlyClosed
  | WrongApplicationId (found : Int)
  | OutOfDate (db_version : Int) (latest_migration : Int)
  | Db (err : RusqliteError)
  | Migration (err : E)

/-- The `on_close` hook `FnOnce(Option<rusqlite::Connection>)`. -/
abbrev OnCloseFn := Option Db → Unit

/-- `ConnectionBuilder` from `builder.rs`. -/
structure ConnectionBuilder (E : Type) where
  app_id : Int
  migrations : Migrations E
  on_close : Option OnCloseFn

/-- `ConnectionBuilder::new`. -/
def ConnectionBuilder.new (E : Type) : ConnectionBuilder E :=
  { app_id := 0, migrations := Migrations.new E, on_close := none }

/-- `ConnectionBuilder::on_close` (the configuration setter). -/
def ConnectionBuilder.withOnClose {E : Type} (self : ConnectionBuilder E)
    (f : OnCloseFn) : ConnectionBuilder E :=
  { self with on_close := some f }

/-- `ConnectionBuilder::app_id`. -/
def ConnectionBuilder.withAppId {E : Type} (self : ConnectionBuilder E)
    (app_id : Int) : ConnectionBuilder E :=
  { self with app_id := app_id }

/-- `ConnectionBuilder::add_migration`; the panic of the underlying
`Migrations::add` is modelled as `none`. -/
def ConnectionBuilder.add_migration {E : Type} (self : ConnectionBuilder E)
    (version : Int) (migration : MigrationFn E) : Option (ConnectionBuilder E) :=
  (self.migrations.add version migration).map fun m =>
    { self with migrations := m }

/-- `ConnectionBuilder::set_migrations`. -/
def ConnectionBuilder.set_migrations {E : Type} (self : ConnectionBuilder E)
    (migrations : Migrations E) : ConnectionBuilder E :=
  { self with migrations := migrations }

/-- Outcome of one `setup` call: the returned result, the persisted database
state when the call returns (a dropped, uncommitted transaction restores the
pre-transaction state), and the versions whose procedure was invoked, in
invocation order. -/
structure SetupResult (E : Type) where
  outcome : Except (ConnectionBuilderError E) Unit
  db : Db
  ran : List Int

/-- The `for (version, migration) in self.migrations.iter()` loop of `setup`,
run against the transaction state `t`: `latest_migration_version` is
overwritten by every iterated version, and the procedure runs only when its
version exceeds the `user_version` read before the transaction began. -/
def migrationLoop {E : Type} (user_version : Int) :
    List (Int × Bool × MigrationFn E) → Db → Int → List Int →
    Except (E × List Int) (Db × Int × List Int)
  | [], t, latest, ran => .ok (t, latest, ran)
  | (version, _, migration) :: rest, t, _, ran =>
    if user_version < version then
      match migration t.content with
      | (_, some e) => .error (e, ran ++ [version])
      | (c, none) =>
        migrationLoop user_version rest { t with content := c } version (ran ++ [version])
    else
      migrationLoop user_version rest t version ran

/-- The part of `ConnectionBuilder::setup` after the application-id step:
enable foreign keys, read `user_version`, run every pending migration inside
one transaction, then update `user_version` and commit, or report
`OutOfDate`. -/
def setupIdentified {E : Type} (self : ConnectionBuilder E) (db : Db) :
    SetupResult E :=
  let db := { db with foreign_keys := true }
  let uv := db.user_version
  match migrationLoop uv self.migrations.iter db 0 [] with
  | .error (e, ran) =>
    { outcome := .error (.Migration e), db := db, ran := ran }
  | .ok (t, latest, ran) =>
    if uv < latest then
      { outcome := .ok (), db := { t with user_version := latest }, ran := ran }
    else if latest < uv then
      { outcome := .error (.OutOfDate uv latest), db := db, ran := ran }
    else
      { outcome := .ok (), db := db, ran := ran }

/-- `ConnectionBuilder::setup` from `builder.rs`: stamp the application id on
a new database, verify it on an existing one, then proceed with foreign keys,
migrations and the version bookkeeping. -/
def ConnectionBuilder.setup {E : Type} (self : ConnectionBuilder E) (db : Db)
    (is_new : Bool) : SetupResult E :=
  if is_new then
    setupIdentified self { db with application_id := self.app_id }
  else if db.application_id ≠ self.app_id then
    { outcome := .error (.WrongApplicationId db.application_id), db := db, ran := [] }
  else
    setupIdentified self db

/-- The connection handle `async_rusqlite::Connection`: the database state it
reaches, and the close hook handed to `async_rusqlite`'s builder for it. -/
structure Conn where
  db : Db
  on_close : Option OnCloseFn

/-- `ConnectionBuilder::connection_builder`: `Option::take` removes the
configured hook from `self` and hands it to the `async_rusqlite` builder. -/
def ConnectionBuilder.connection_builder {E : Type} (self : ConnectionBuilder E) :
    ConnectionBuilder E × Option OnCloseFn :=
  ({ self with on_close := none }, self.on_close)

/-- Does the Rust pattern
`Err(SqliteFailure(ffi::Error { code, .. }, _)) if code == CannotOpen`
match this error? -/
def isCannotOpen : RusqliteError → Bool
  | .SqliteFailure err => err.code = ErrorCode.CannotOpen
  | _ => false

/-- Outcome of one `ConnectionBuilder::open` call: the returned result, the
`SQLITE_OPEN_CREATE` flag of each `open_with_flags` attempt in order, the
`is_new` flag `setup` was invoked with (when it was), and that `setup` call's
result. -/
structure OpenResult (E : Type) where
  outcome : Except (ConnectionBuilderError E) Conn
  attempts : List Bool
  setup_is_new : Option Bool
  setup_result : Option (SetupResult E)

/-- `ConnectionBuilder::open` from `builder.rs`, with SQLite's
`open_with_flags` supplied as the environment `env` (its argument: whether
`SQLITE_OPEN_CREATE` is included in the flags). A first attempt without
create permission; on `CannotOpen`, a second attempt with it and
`is_new = true`; any other failure is returned as is. -/
def ConnectionBuilder.openPath {E : Type} (self : ConnectionBuilder E)
    (env : Bool → Except RusqliteError Db) : OpenResult E :=
  let taken1 := self.connection_builder
  match env false with
  | .ok db =>
    let s := taken1.1.setup db false
    { outcome :=
        match s.outcome with
        | .ok _ => .ok ⟨s.db, taken1.2⟩
        | .error err => .error err,
      attempts := [false], setup_is_new := some false, setup_result := some s }
  | .error e =>
    if isCannotOpen e then
      let taken2 := taken1.1.connection_builder
      match env true with
      | .ok db =>
        let s := taken2.1.setup db true
        { outcome :=
            match s.outcome with
            | .ok _ => .ok ⟨s.db, taken2.2⟩
            | .error err => .error err,
          attempts := [false, true], setup_is_new := some true,
          setup_result := some s }
      | .error e2 =>
        { outcome := .error (.Db e2), attempts := [false, true],
          setup_is_new := none, setup_result := none }
    else
      { outcome := .error (.Db e), attempts := [false],
        setup_is_new := none, setup_result := none }

/-- Register a list of (version, procedure) pairs one by one with
`Migrations::add`, propagating the modelled panic. -/
def registerAll {E : Type} (s : Migrations E) :
    List (Int × MigrationFn E) → Option (Migrations E)
  | [] => some s
  | (v, f) :: rest => (s.add v f).bind fun s' => registerAll s' rest

/-- A migration procedure that changes nothing and succeeds. -/
def okMig : MigrationFn Unit := fun c => (c, none)

/-- A migration procedure that changes nothing and fails. -/
def failMig : MigrationFn Unit := fun c => (c, some ())

/-- A migration procedure that inserts one row and then fails. -/
def writeFailMig : MigrationFn Unit := fun c => (c ++ [42], some ())

/-- A freshly created, empty database file: both pragma slots are `0`. -/
def freshDb : Db := { application_id := 0, user_version := 0, foreign_keys := false, content := [] }

/-- The registry obtained by registering versions 1, 3 and 2 in that order
(all procedures succeed). -/
def reg132 : Option (Migrations Unit) :=
  ((Migrations.new Unit).add 1 okMig).bind fun s =>
    (s.add 3 okMig).bind fun s' => s'.add 2 okMig

/-- A builder holding the `reg132` registry. -/
def builder132 : Option (ConnectionBuilder Unit) :=
  reg132.map fun m => (ConnectionBuilder.new Unit).set_migrations m

/-!
## Claim theorems
-/

/-- C1: the spec states that `Migrations::iter` yields the registered
migrations in ascending order of version. It does not: `BinaryHeap::iter`
visits the backing vector in stored order, so registering versions 1, 3, 2
in that order makes `iter` yield versions in the order `[1, 3, 2]`, which is
not sorted. -/
theorem iter_order_not_ascending :
    (reg132.map fun m => m.iter.map fun t => t.1) = some [1, 3, 2]
    ∧ ¬ ([1, 3, 2] : List Int).Sorted (· ≤ ·) := by
  refine ⟨rfl, ?_⟩
  decide

/-- C2: on a pre-existing database whose stored application tag differs from
the configured one, `setup` fails with `WrongApplicationId` carrying exactly
the tag found on disk, invokes no migration procedure, and leaves the
persisted state (schema version and content included) completely
unchanged. -/
theorem setup_wrong_app_id {E : Type} (b : ConnectionBuilder E) (db : Db)
    (h : db.application_id ≠ b.app_id) :
    b.setup db false =
      { outcome := .error (.WrongApplicationId db.application_id),
        db := db, ran := [] } := by
  unfold ConnectionBuilder.setup
  simp [h]

/-- Witness for C2 at a concrete builder (configured tag 5) and database
(stored tag 7, version 2, one row of content). -/
theorem setup_wrong_app_id_witness :
    ((ConnectionBuilder.new Unit).withAppId 5).setup
        { application_id := 7, user_version := 2, foreign_keys := true, content := [9] } false
      = { outcome := .error (.WrongApplicationId 7),
          db := { application_id := 7, user_version := 2, foreign_keys := true, content := [9] },
          ran := [] } :=
  setup_wrong_app_id ((ConnectionBuilder.new Unit).withAppId 5)
    { application_id := 7, user_version := 2, foreign_keys := true, content := [9] }
    (by decide)

/-- C4: the spec states that after a successful pass that applied at least
one migration, the persisted `user_version` equals the highest version
applied. It does not: with versions registered in the order 1, 3, 2 on a
fresh database, all three procedures run (trace `[1, 3, 2]`) and the call
succeeds, yet the persisted version is 2 — the version of the last migration
in heap-storage order — while the highest registered (and applied) version
is 3. -/
theorem setup_commits_last_iterated_version_not_max :
    (builder132.map fun b =>
        let r := b.setup freshDb true
        (r.outcome, r.ran, r.db.user_version))
      = some (.ok (), [1, 3, 2], 2)
    ∧ (builder132.map fun b => (b.migrations.iter.map fun t => t.1).foldl max 0)
      = some 3 := by
  exact ⟨rfl, rfl⟩

/-- C5: the spec states that `setup` fails with `OutOfDate` iff the disk
version exceeds the highest registered version, carrying the disk version
and that highest version. It does not: with versions registered in the order
1, 3, 2 and a disk version of 3 (equal to the highest registered version, so
the claim demands success), `setup` fails with `OutOfDate` carrying
`latest_migration = 2`, the version of the last migration in heap-storage
order. -/
theorem setup_out_of_date_uses_last_iterated_version :
    (builder132.map fun b =>
        (b.setup { freshDb with user_version := 3 } false).outcome)
      = some (.error (.OutOfDate 3 2))
    ∧ (builder132.map fun b => (b.migrations.iter.map fun t => t.1).foldl max 0)
      = some 3 := by
  exact ⟨rfl, rfl⟩

/-- C9: the spec states that side effects already committed by a failing
non-transactional migration remain on disk. They do not: `setup` in
`builder.rs` runs every migration — `add_non_transactionally` or not —
inside the one shared transaction, so when a migration that inserted a row
fails, the row is rolled back with everything else: the persisted content
after the failed call is empty (the repository's own
`non_transactional_migration_can_be_applied` test expects the row to
remain). -/
theorem non_transactional_effects_rolled_back :
    (((Migrations.new Unit).add_non_transactionally 1 writeFailMig).map fun m =>
        let r := ((ConnectionBuilder.new Unit).set_migrations m).setup freshDb true
        (r.outcome, r.ran, r.db.content, r.db.user_version))
      = some (.error (.Migration ()), [1], [], 0) := by
  rfl

/-!
## Unfolding lemmas for `setup`
-/

/-- `setup` on a pre-existing database whose tag matches proceeds past the
identity check. -/
theorem setup_not_new {E : Type} (b : ConnectionBuilder E) (db : Db)
    (hid : db.application_id = b.app_id) :
    b.setup db false = setupIdentified b db := by
  unfold ConnectionBuilder.setup
  simp [hid]

/-- `setup` on a new database stamps the configured tag and proceeds. -/
theorem setup_new {E : Type} (b : ConnectionBuilder E) (db : Db) :
    b.setup db true = setupIdentified b { db with application_id := b.app_id } := by
  rfl

/-- When the migration loop fails, `setupIdentified` reports the failure and
the transaction is dropped: the persisted state is the pre-transaction one. -/
theorem setupIdentified_error {E : Type} (b : ConnectionBuilder E) (db : Db)
    (e : E) (ran : List Int)
    (hfail : migrationLoop db.user_version b.migrations.iter
        { db with foreign_keys := true } 0 [] = .error (e, ran)) :
    setupIdentified b db =
      { outcome := .error (.Migration e),
        db := { db with foreign_keys := true }, ran := ran } := by
  simp only [setupIdentified]
  rw [hfail]

/-- When the migration loop succeeds with a final `latest_migration_version`
above the stored one, `setupIdentified` commits the transaction state with the
updated version. -/
theorem setupIdentified_ok_commit {E : Type} (b : ConnectionBuilder E) (db : Db)
    (t : Db) (latest : Int) (ran : List Int)
    (hok : migrationLoop db.user_version b.migrations.iter
        { db with foreign_keys := true } 0 [] = .ok (t, latest, ran))
    (hlt : db.user_version < latest) :
    setupIdentified b db =
      { outcome := .ok (), db := { t with user_version := latest }, ran := ran } := by
  simp only [setupIdentified]
  rw [hok]
  simp [hlt]

/-- When the migration loop ends with `latest_migration_version` equal to the
stored version, `setupIdentified` succeeds without committing anything. -/
theorem setupIdentified_ok_equal {E : Type} (b : ConnectionBuilder E) (db : Db)
    (t : Db) (ran : List Int)
    (hok : migrationLoop db.user_version b.migrations.iter
        { db with foreign_keys := true } 0 [] = .ok (t, db.user_version, ran)) :
    setupIdentified b db =
      { outcome := .ok (), db := { db with foreign_keys := true }, ran := ran } := by
  simp only [setupIdentified]
  rw [hok]
  simp

/-- A one-migration registry whose procedure fails without side effects. -/
def failReg : Migrations Unit := ⟨[⟨1, true, failMig⟩]⟩

/-- A builder holding the `failReg` registry. -/
def c3Builder : ConnectionBuilder Unit :=
  (ConnectionBuilder.new Unit).set_migrations failReg

/-- C3: for a registry of transactional migrations, when a pending migration
procedure fails during `setup` (the loop over the registry reports its
failure value), `setup` returns a `Migration` error carrying that value, and
the transaction is dropped uncommitted: the persisted schema version and
content after the call are exactly those from before the attempt. -/
theorem setup_migration_failure_rolls_back {E : Type} (b : ConnectionBuilder E)
    (db : Db) (e : E) (ran : List Int)
    (_htx : ∀ m ∈ b.migrations.migrations, m.perform_in_transaction = true)
    (hid : db.application_id = b.app_id)
    (hfail : migrationLoop db.user_version b.migrations.iter
        { db with foreign_keys := true } 0 [] = .error (e, ran)) :
    (b.setup db false).outcome = .error (.Migration e)
    ∧ (b.setup db false).db.user_version = db.user_version
    ∧ (b.setup db false).db.content = db.content
    ∧ (b.setup db false).db.application_id = db.application_id := by
  rw [setup_not_new b db hid, setupIdentified_error b db e ran hfail]
  exact ⟨rfl, rfl, rfl, rfl⟩

/-- Witness for C3: the failing one-migration registry on a fresh database
leaves version `0` and empty content behind the `Migration` error. -/
theorem setup_migration_failure_rolls_back_witness :
    (c3Builder.setup freshDb false).outcome = .error (.Migration ())
    ∧ (c3Builder.setup freshDb false).db.user_version = 0
    ∧ (c3Builder.setup freshDb false).db.content = [] := by
  have h := setup_migration_failure_rolls_back c3Builder freshDb () [1]
    (by decide) (by decide) (by rfl)
  exact ⟨h.1, h.2.1, h.2.2.1⟩

/-!
## `heapPush` permutes: registration only rearranges the backing vector
-/

/-- Pulling the `m`-th element of a list to the front while writing `a` into
its slot is a permutation of putting `a` in front. -/
theorem getElem_cons_set_perm {α : Type} :
    ∀ (t : List α) (m : Nat) (hm : m < t.length) (a : α),
      (t[m] :: t.set m a).Perm (a :: t)
  | [], m, hm, _ => absurd hm (by simp)
  | b :: t', 0, _, a => by
    simpa using List.Perm.swap a b t'
  | b :: t', m + 1, hm, a => by
    have hm' : m < t'.length := by simpa using hm
    have ih := getElem_cons_set_perm t' m hm' a
    have e1 : (b :: t')[m + 1] :: (b :: t').set (m + 1) a
        = t'[m] :: b :: t'.set m a := by simp
    rw [e1]
    exact ((List.Perm.swap b t'[m] (t'.set m a)).trans (ih.cons b)).trans
      (List.Perm.swap a b t')

/-- Exchanging two in-range entries of a list by a pair of `set`s is a
permutation. -/
theorem set_set_swap_perm {α : Type} :
    ∀ (l : List α) (i j : Nat) (hi : i < l.length) (hj : j < l.length),
      ((l.set i l[j]).set j l[i]).Perm l
  | [], i, _, hi, _ => absurd hi (by simp)
  | a :: t, 0, 0, _, _ => by simp
  | a :: t, 0, j + 1, _, hj => by
    have hj' : j < t.length := by simpa using hj
    simpa using getElem_cons_set_perm t j hj' a
  | a :: t, i + 1, 0, hi, _ => by
    have hi' : i < t.length := by simpa using hi
    simpa using getElem_cons_set_perm t i hi' a
  | a :: t, i + 1, j + 1, hi, hj => by
    have hi' : i < t.length := by simpa using hi
    have hj' : j < t.length := by simpa using hj
    simpa using (set_set_swap_perm t i j hi' hj').cons a

/-- `listSwap` is a permutation. -/
theorem listSwap_perm {α : Type} (l : List α) (i j : Nat) :
    (listSwap l i j).Perm l := by
  unfold listSwap
  split
  · split
    · exact set_set_swap_perm l i j (by assumption) (by assumption)
    · exact List.Perm.refl l
  · exact List.Perm.refl l

/-- `sift_up` is a permutation of the backing vector. -/
theorem siftUpAux_perm {E : Type} :
    ∀ (fuel : Nat) (data : List (Migration E)) (pos : Nat),
      (siftUpAux fuel data pos).Perm data
  | 0, data, _ => List.Perm.refl data
  | fuel + 1, data, pos => by
    unfold siftUpAux
    split
    · split
      · exact (siftUpAux_perm fuel _ _).trans (listSwap_perm data pos ((pos - 1) / 2))
      · exact List.Perm.refl data
    · exact List.Perm.refl data

/-- `BinaryHeap::push` inserts exactly the pushed element: the new backing
vector is a permutation of the old one with the element in front. -/
theorem heapPush_perm {E : Type} (data : List (Migration E)) (m : Migration E) :
    (heapPush data m).Perm (m :: data) := by
  unfold heapPush siftUp
  exact (siftUpAux_perm data.length (data ++ [m]) data.length).trans
    (List.perm_append_singleton m data)

/-- C7: registering a migration — through `Migrations::add`,
`Migrations::add_non_transactionally` (both delegating to
`do_add_migration`) or `ConnectionBuilder::add_migration` — panics exactly
when the version is not positive; for a positive version the assertion
passes and the returned registry holds the new migration on top of the
previous ones. -/
theorem add_migration_panics_iff_nonpositive {E : Type} (s : Migrations E)
    (v : Int) (tx : Bool) (f : MigrationFn E) :
    (s.do_add_migration v tx f = none ↔ v ≤ 0)
    ∧ (0 < v → ∃ s', s.do_add_migration v tx f = some s'
        ∧ s'.migrations.Perm (⟨v, tx, f⟩ :: s.migrations))
    ∧ s.add v f = s.do_add_migration v true f
    ∧ s.add_non_transactionally v f = s.do_add_migration v false f
    ∧ (∀ b : ConnectionBuilder E, (b.add_migration v f = none ↔ v ≤ 0)) := by
  refine ⟨?_, ?_, rfl, rfl, ?_⟩
  · unfold Migrations.do_add_migration
    split <;> simp <;> omega
  · intro hv
    exact ⟨⟨heapPush s.migrations ⟨v, tx, f⟩⟩,
      by unfold Migrations.do_add_migration; simp [hv],
      heapPush_perm s.migrations ⟨v, tx, f⟩⟩
  · intro b
    unfold ConnectionBuilder.add_migration Migrations.add Migrations.do_add_migration
    split <;> simp <;> omega

/-- Witness for C7: version `0` panics, version `2` passes and is inserted,
version `-3` panics through the builder. -/
theorem add_migration_panics_iff_nonpositive_witness :
    ((Migrations.new Unit).do_add_migration 0 true okMig = none)
    ∧ (∃ s', (Migrations.new Unit).do_add_migration 2 true okMig = some s'
        ∧ s'.migrations.Perm ([⟨2, true, okMig⟩] : List (Migration Unit)))
    ∧ ((ConnectionBuilder.new Unit).add_migration (-3) okMig = none) := by
  refine ⟨?_, ?_, ?_⟩
  · exact (add_migration_panics_iff_nonpositive (Migrations.new Unit) 0 true okMig).1.mpr
      (by decide)
  · exact (add_migration_panics_iff_nonpositive (Migrations.new Unit) 2 true okMig).2.1
      (by decide)
  · exact ((add_migration_panics_iff_nonpositive (Migrations.new Unit) (-3) true
      okMig).2.2.2.2 (ConnectionBuilder.new Unit)).mpr (by decide)

/-- An environment whose open attempts fail with a non-`CannotOpen` error. -/
def envOther : Bool → Except RusqliteError Db := fun _ => .error (.Other 5)

/-- An environment where the file is missing: opening without create
permission fails with `CannotOpen`, opening with it succeeds. -/
def envCreate : Bool → Except RusqliteError Db := fun create =>
  if create then .ok freshDb else .error (.SqliteFailure ⟨.CannotOpen, 14⟩)

/-- An environment where the file exists and opens directly. -/
def envPlain : Bool → Except RusqliteError Db := fun _ => .ok freshDb

/-- C8: path-based open. A first-attempt failure other than `CannotOpen` is
returned verbatim with no creation attempt; a `CannotOpen` failure triggers
one retry with create permission and, when it opens, `setup` with
`is_new = true`; a first-attempt success goes to `setup` with
`is_new = false`. -/
theorem openPath_open_or_create {E : Type} (b : ConnectionBuilder E)
    (env : Bool → Except RusqliteError Db) :
    (∀ e, env false = .error e → isCannotOpen e = false →
      b.openPath env = { outcome := .error (.Db e), attempts := [false],
                         setup_is_new := none, setup_result := none })
    ∧ (∀ e db, env false = .error e → isCannotOpen e = true → env true = .ok db →
      (b.openPath env).attempts = [false, true]
      ∧ (b.openPath env).setup_is_new = some true
      ∧ (b.openPath env).setup_result = some (b.setup db true))
    ∧ (∀ db, env false = .ok db →
      (b.openPath env).attempts = [false]
      ∧ (b.openPath env).setup_is_new = some false
      ∧ (b.openPath env).setup_result = some (b.setup db false)) := by
  refine ⟨?_, ?_, ?_⟩
  · intro e h1 h2
    unfold ConnectionBuilder.openPath
    rw [h1]
    simp [h2]
  · intro e db h1 h2 h3
    unfold ConnectionBuilder.openPath
    rw [h1]
    simp only [h2, if_true]
    rw [h3]
    exact ⟨rfl, rfl, rfl⟩
  · intro db h1
    unfold ConnectionBuilder.openPath
    rw [h1]
    exact ⟨rfl, rfl, rfl⟩

/-- Witness for C8 over the three concrete environments. -/
theorem openPath_open_or_create_witness :
    ((ConnectionBuilder.new Unit).openPath envOther
      = { outcome := .error (.Db (.Other 5)), attempts := [false],
          setup_is_new := none, setup_result := none })
    ∧ ((ConnectionBuilder.new Unit).openPath envCreate).setup_is_new = some true
    ∧ ((ConnectionBuilder.new Unit).openPath envPlain).setup_is_new = some false := by
  refine ⟨(openPath_open_or_create (ConnectionBuilder.new Unit) envOther).1
      (.Other 5) rfl rfl, ?_, ?_⟩
  · exact ((openPath_open_or_create (ConnectionBuilder.new Unit) envCreate).2.1
      (.SqliteFailure ⟨.CannotOpen, 14⟩) freshDb rfl rfl rfl).2.1
  · exact ((openPath_open_or_create (ConnectionBuilder.new Unit) envPlain).2.2
      freshDb rfl).2.1

/-- C10: when the first open attempt fails with `CannotOpen` and the retry
with create permission succeeds, the retry's `connection_builder()` call
finds the `on_close` option already consumed by the first call's
`Option::take`, so the connection returned for the newly created file
carries no close hook. -/
theorem created_file_conn_has_no_close_hook {E : Type} (b : ConnectionBuilder E)
    (f : OnCloseFn) (_hb : b.on_close = some f)
    (env : Bool → Except RusqliteError Db) (e : RusqliteError) (db : Db)
    (h1 : env false = .error e) (h2 : isCannotOpen e = true) (h3 : env true = .ok db)
    (conn : Conn) (hok : (b.openPath env).outcome = .ok conn) :
    conn.on_close = none := by
  unfold ConnectionBuilder.openPath at hok
  rw [h1] at hok
  simp only [h2, if_true] at hok
  rw [h3] at hok
  simp only [ConnectionBuilder.connection_builder] at hok
  cases hs : (({ b with on_close := none } : ConnectionBuilder E).setup db true).outcome with
  | ok u =>
    rw [hs] at hok
    cases hok
    rfl
  | error err =>
    rw [hs] at hok
    cases hok

/-- Witness for C10: a builder with a configured hook, against the
missing-file environment, hands back a connection with no hook. -/
theorem created_file_conn_has_no_close_hook_witness :
    (((ConnectionBuilder.new Unit).withOnClose (fun _ => ())).openPath envCreate).outcome
      = .ok ⟨{ application_id := 0, user_version := 0, foreign_keys := true, content := [] }, none⟩
    ∧ (⟨{ application_id := 0, user_version := 0, foreign_keys := true, content := [] },
        none⟩ : Conn).on_close = none := by
  refine ⟨rfl, ?_⟩
  exact created_file_conn_has_no_close_hook
    ((ConnectionBuilder.new Unit).withOnClose (fun _ => ())) (fun _ => ()) rfl
    envCreate (.SqliteFailure ⟨.CannotOpen, 14⟩) freshDb rfl rfl rfl
    ⟨{ application_id := 0, user_version := 0, foreign_keys := true, content := [] }, none⟩
    rfl

/-!
## The migration loop and sorted registration
-/

/-- The loop's final `latest_migration_version` is the version of the last
iterated migration (or the initial value when there is none). -/
theorem migrationLoop_ok_latest {E : Type} :
    ∀ (migs : List (Int × Bool × MigrationFn E)) (uv : Int) (t : Db) (l : Int)
      (r : List Int) (t' : Db) (lat : Int) (r' : List Int),
      migrationLoop uv migs t l r = .ok (t', lat, r') →
      lat = (migs.map fun x => x.1).getLastD l
  | [], uv, t, l, r, t', lat, r', h => by
    simp only [migrationLoop] at h
    cases h
    rfl
  | (v, tx, f) :: rest, uv, t, l, r, t', lat, r', h => by
    simp only [migrationLoop] at h
    rw [List.map_cons, List.getLastD_cons]
    split at h
    · cases hf : f t.content with
      | mk c err =>
        rw [hf] at h
        cases err with
        | none => exact migrationLoop_ok_latest rest uv _ v _ t' lat r' h
        | some e => cases h
    · exact migrationLoop_ok_latest rest uv t v r t' lat r' h

/-- The loop never touches the pragma slots or the foreign-key flag of the
transaction state: migrations mutate content only. -/
theorem migrationLoop_ok_fields {E : Type} :
    ∀ (migs : List (Int × Bool × MigrationFn E)) (uv : Int) (t : Db) (l : Int)
      (r : List Int) (t' : Db) (lat : Int) (r' : List Int),
      migrationLoop uv migs t l r = .ok (t', lat, r') →
      t'.application_id = t.application_id ∧ t'.user_version = t.user_version
      ∧ t'.foreign_keys = t.foreign_keys
  | [], uv, t, l, r, t', lat, r', h => by
    simp only [migrationLoop] at h
    cases h
    exact ⟨rfl, rfl, rfl⟩
  | (v, tx, f) :: rest, uv, t, l, r, t', lat, r', h => by
    simp only [migrationLoop] at h
    split at h
    · cases hf : f t.content with
      | mk c err =>
        rw [hf] at h
        cases err with
        | none =>
          have ih := migrationLoop_ok_fields rest uv { t with content := c } v
            (r ++ [v]) t' lat r' h
          exact ih
        | some e => cases h
    · exact migrationLoop_ok_fields rest uv t v r t' lat r' h

/-- When no iterated version exceeds the stored one, the loop invokes no
procedure and returns the state unchanged, with `latest_migration_version`
the last iterated version. -/
theorem migrationLoop_no_pending {E : Type} :
    ∀ (migs : List (Int × Bool × MigrationFn E)) (uv : Int) (t : Db) (l : Int)
      (r : List Int),
      (∀ x ∈ migs, x.1 ≤ uv) →
      migrationLoop uv migs t l r = .ok (t, (migs.map fun x => x.1).getLastD l, r)
  | [], uv, t, l, r, _ => rfl
  | (v, tx, f) :: rest, uv, t, l, r, h => by
    have hv : v ≤ uv := h (v, tx, f) (List.mem_cons_self _ _)
    simp only [migrationLoop, if_neg (not_lt.mpr hv)]
    rw [List.map_cons, List.getLastD_cons]
    exact migrationLoop_no_pending rest uv t v r
      (fun x hx => h x (List.mem_cons_of_mem _ hx))

/-- The last element of a non-empty list is a member, whatever the
default. -/
theorem getLastD_cons_mem {α : Type} :
    ∀ (t : List α) (a d : α), (a :: t).getLastD d ∈ a :: t
  | [], a, d => by simp
  | b :: t', a, d => by
    rw [List.getLastD_cons]
    exact List.mem_cons_of_mem a (getLastD_cons_mem t' b a)

/-- The last element of a list is the default or a member. -/
theorem getLastD_mem_cons {α : Type} : ∀ (t : List α) (a : α), t.getLastD a ∈ a :: t
  | [], a => by simp
  | b :: t', a => List.mem_cons_of_mem a (getLastD_cons_mem t' b a)

/-- In a strictly increasing list every element is at most the last one. -/
theorem pairwise_lt_le_getLastD :
    ∀ (l : List Int) (d : Int), l.Pairwise (· < ·) →
      ∀ x ∈ l, x ≤ l.getLastD d
  | [], _, _, x, hx => absurd hx (by simp)
  | a :: t, d, hp, x, hx => by
    rw [List.getLastD_cons]
    rcases List.pairwise_cons.mp hp with ⟨ha, ht⟩
    rcases List.mem_cons.mp hx with rfl | hxt
    · rcases List.mem_cons.mp (getLastD_mem_cons t x) with he | hm
      · exact le_of_eq he.symm
      · exact le_of_lt (ha _ hm)
    · exact pairwise_lt_le_getLastD t a ht x hxt

/-- Pushing an element whose version is at least every stored version leaves
the backing vector's order untouched: the element is appended. -/
theorem heapPush_append {E : Type} (data : List (Migration E)) (m : Migration E)
    (h : ∀ x ∈ data, x.version ≤ m.version) :
    heapPush data m = data ++ [m] := by
  unfold heapPush siftUp
  cases hd : data.length with
  | zero => rfl
  | succ n =>
    have hpar : n / 2 < data.length := by
      omega
    have hv1 : versionAt (data ++ [m]) (n + 1) = m.version := by
      unfold versionAt
      rw [show n + 1 = data.length from hd.symm,
        List.getElem?_append_right (Nat.le_refl _)]
      simp
    have hv2 : versionAt (data ++ [m]) ((n + 1 - 1) / 2) ≤ m.version := by
      unfold versionAt
      have hn : (n + 1 - 1) / 2 = n / 2 := by omega
      rw [hn, List.getElem?_append_left hpar, List.getElem?_eq_getElem hpar]
      exact h _ (List.getElem_mem hpar)
    simp only [siftUpAux, if_pos (Nat.succ_pos n)]
    rw [if_neg (not_lt.mpr (hv1 ▸ hv2))]

/-- When the migration loop ends with `latest_migration_version` below the
stored version, `setupIdentified` fails with `OutOfDate` and the transaction
is dropped. -/
theorem setupIdentified_out_of_date {E : Type} (b : ConnectionBuilder E) (db : Db)
    (t : Db) (latest : Int) (ran : List Int)
    (hok : migrationLoop db.user_version b.migrations.iter
        { db with foreign_keys := true } 0 [] = .ok (t, latest, ran))
    (hlt : latest < db.user_version) :
    setupIdentified b db =
      { outcome := .error (.OutOfDate db.user_version latest),
        db := { db with foreign_keys := true }, ran := ran } := by
  simp only [setupIdentified]
  rw [hok]
  have h1 : ¬ db.user_version < latest := by omega
  simp [h1, hlt]

/-- Registering positive, strictly increasing versions appends in
registration order: the backing vector is exactly the registration
sequence. -/
theorem registerAll_sorted {E : Type} :
    ∀ (vs : List (Int × MigrationFn E)) (s : Migrations E),
      (∀ p ∈ vs, 0 < p.1) →
      ((vs.map fun p => p.1).Pairwise (· < ·)) →
      (∀ x ∈ s.migrations, ∀ p ∈ vs, x.version ≤ p.1) →
      registerAll s vs
        = some ⟨s.migrations ++ vs.map fun p => ⟨p.1, true, p.2⟩⟩
  | [], s, _, _, _ => by simp [registerAll]
  | (v, f) :: rest, s, hpos, hinc, hinv => by
    have hv : 0 < v := hpos (v, f) (List.mem_cons_self _ _)
    have hle : ∀ x ∈ s.migrations, x.version ≤ v :=
      fun x hx => hinv x hx (v, f) (List.mem_cons_self _ _)
    have hadd : Migrations.add s v f
        = some ⟨s.migrations ++ [⟨v, true, f⟩]⟩ := by
      unfold Migrations.add Migrations.do_add_migration
      rw [if_pos hv, heapPush_append s.migrations ⟨v, true, f⟩ hle]
    have hpw : (v :: rest.map fun p => p.1).Pairwise (· < ·) := by
      simpa using hinc
    rcases List.pairwise_cons.mp hpw with ⟨hhead, htail⟩
    have hinv' : ∀ x ∈ s.migrations ++ [⟨v, true, f⟩],
        ∀ p ∈ rest, (x : Migration E).version ≤ p.1 := by
      intro x hx p hp
      rcases List.mem_append.mp hx with hxs | hxm
      · exact hinv x hxs p (List.mem_cons_of_mem _ hp)
      · rcases List.mem_singleton.mp hxm with rfl
        exact le_of_lt (hhead p.1 (List.mem_map_of_mem _ hp))
    have ih := registerAll_sorted rest ⟨s.migrations ++ [⟨v, true, f⟩]⟩
      (fun p hp => hpos p (List.mem_cons_of_mem _ hp)) htail hinv'
    simp only [registerAll, hadd, Option.some_bind, ih, List.append_assoc,
      List.singleton_append, List.map_cons]

/-- Builder with a configured tag and registry, as assembled by the
`builder.rs` fluent configuration calls. -/
def mkBuilder {E : Type} (A : Int) (m : Migrations E) : ConnectionBuilder E :=
  ((ConnectionBuilder.new E).withAppId A).set_migrations m

/-- C6: for a registry registered in strictly increasing positive version
order, opening a fresh store (first `setup`, `is_new = true`, stored version
`0`) and, when it succeeds, re-running `setup` on the resulting state with
the identical registry succeeds again, invokes no migration procedure, and
leaves the persisted schema version unchanged. -/
theorem reopen_same_registry_applies_nothing {E : Type}
    (vs : List (Int × MigrationFn E)) (A : Int) (m : Migrations E) (db0 : Db)
    (hreg : registerAll (Migrations.new E) vs = some m)
    (hpos : ∀ p ∈ vs, 0 < p.1)
    (hinc : (vs.map fun p => p.1).Pairwise (· < ·))
    (_h0 : db0.user_version = 0)
    (hfirst : ((mkBuilder A m).setup db0 true).outcome = .ok ()) :
    ((mkBuilder A m).setup ((mkBuilder A m).setup db0 true).db false).outcome = .ok ()
    ∧ ((mkBuilder A m).setup ((mkBuilder A m).setup db0 true).db false).ran = []
    ∧ ((mkBuilder A m).setup ((mkBuilder A m).setup db0 true).db false).db.user_version
      = ((mkBuilder A m).setup db0 true).db.user_version := by
  have hm : m = ⟨vs.map fun p => ⟨p.1, true, p.2⟩⟩ := by
    have hall := registerAll_sorted vs (Migrations.new E) hpos hinc
      (by intro x hx; cases hx)
    have h2 : (some m : Option (Migrations E))
        = some ⟨vs.map fun p => ⟨p.1, true, p.2⟩⟩ := by
      rw [← hreg]; exact hall
    exact Option.some.inj h2
  subst hm
  have hmapv : ((mkBuilder A (⟨vs.map fun p => ⟨p.1, true, p.2⟩⟩ : Migrations E)
      : ConnectionBuilder E).migrations.iter.map fun x => x.1)
      = vs.map fun p => p.1 := by
    simp [mkBuilder, ConnectionBuilder.set_migrations, ConnectionBuilder.withAppId,
      Migrations.iter, List.map_map]
  cases hloop : migrationLoop
      ({ db0 with application_id :=
        (mkBuilder A (⟨vs.map fun p => ⟨p.1, true, p.2⟩⟩ : Migrations E)
          : ConnectionBuilder E).app_id } : Db).user_version
      (mkBuilder A (⟨vs.map fun p => ⟨p.1, true, p.2⟩⟩ : Migrations E)
        : ConnectionBuilder E).migrations.iter
      { ({ db0 with application_id :=
        (mkBuilder A (⟨vs.map fun p => ⟨p.1, true, p.2⟩⟩ : Migrations E)
          : ConnectionBuilder E).app_id } : Db) with foreign_keys := true }
      0 [] with
  | error pe =>
    rcases pe with ⟨e, ran⟩
    rw [setup_new, setupIdentified_error _ _ e ran hloop] at hfirst
    cases hfirst
  | ok tr =>
    rcases tr with ⟨t, latest, ran⟩
    have hlat := migrationLoop_ok_latest _ _ _ _ _ _ _ _ hloop
    have hfields := migrationLoop_ok_fields _ _ _ _ _ _ _ _ hloop
    have hle : ∀ x ∈ (mkBuilder A (⟨vs.map fun p => ⟨p.1, true, p.2⟩⟩ : Migrations E)
        : ConnectionBuilder E).migrations.iter, (x : Int × Bool × MigrationFn E).1 ≤ latest := by
      intro x hx
      rw [hlat, hmapv]
      exact pairwise_lt_le_getLastD _ 0 hinc x.1
        (by rw [← hmapv]; exact List.mem_map_of_mem _ hx)
    have key : ∀ db1 : Db,
        db1.application_id = (mkBuilder A (⟨vs.map fun p => ⟨p.1, true, p.2⟩⟩
          : Migrations E) : ConnectionBuilder E).app_id →
        db1.user_version = latest →
        ((mkBuilder A (⟨vs.map fun p => ⟨p.1, true, p.2⟩⟩ : Migrations E)
          : ConnectionBuilder E).setup db1 false).outcome = .ok ()
        ∧ ((mkBuilder A (⟨vs.map fun p => ⟨p.1, true, p.2⟩⟩ : Migrations E)
          : ConnectionBuilder E).setup db1 false).ran = []
        ∧ ((mkBuilder A (⟨vs.map fun p => ⟨p.1, true, p.2⟩⟩ : Migrations E)
          : ConnectionBuilder E).setup db1 false).db.user_version = latest := by
      intro db1 hid1 huv1
      have hlast : ((mkBuilder A (⟨vs.map fun p => ⟨p.1, true, p.2⟩⟩ : Migrations E)
          : ConnectionBuilder E).migrations.iter.map fun x => x.1).getLastD 0
          = db1.user_version := by
        rw [huv1, hlat]
      have hnp : migrationLoop db1.user_version
          (mkBuilder A (⟨vs.map fun p => ⟨p.1, true, p.2⟩⟩ : Migrations E)
            : ConnectionBuilder E).migrations.iter
          { db1 with foreign_keys := true } 0 []
          = .ok ({ db1 with foreign_keys := true }, db1.user_version, []) := by
        rw [migrationLoop_no_pending _ _ _ _ []
          (fun x hx => huv1 ▸ hle x hx), hlast]
      rw [setup_not_new _ db1 hid1,
        setupIdentified_ok_equal _ db1 { db1 with foreign_keys := true } [] hnp]
      exact ⟨rfl, rfl, huv1⟩
    rcases lt_trichotomy (({ db0 with application_id :=
        (mkBuilder A (⟨vs.map fun p => ⟨p.1, true, p.2⟩⟩ : Migrations E)
          : ConnectionBuilder E).app_id } : Db).user_version) latest
      with hcase | hcase | hcase
    · -- migrations were applied and committed
      have hr1 : (mkBuilder A (⟨vs.map fun p => ⟨p.1, true, p.2⟩⟩ : Migrations E)
          : ConnectionBuilder E).setup db0 true
          = { outcome := .ok (), db := { t with user_version := latest }, ran := ran } := by
        rw [setup_new, setupIdentified_ok_commit _ _ t latest ran hloop hcase]
      rw [hr1]
      exact key { t with user_version := latest } hfields.1 rfl
    · -- nothing was pending on the first pass either
      have hr1 : (mkBuilder A (⟨vs.map fun p => ⟨p.1, true, p.2⟩⟩ : Migrations E)
          : ConnectionBuilder E).setup db0 true
          = { outcome := .ok (),
              db := { ({ db0 with application_id :=
                (mkBuilder A (⟨vs.map fun p => ⟨p.1, true, p.2⟩⟩ : Migrations E)
                  : ConnectionBuilder E).app_id } : Db) with foreign_keys := true },
              ran := ran } := by
        rw [setup_new, setupIdentified_ok_equal _ _ t ran (by rw [← hcase] at hloop; exact hloop)]
      have hk := key
        { ({ db0 with application_id :=
            (mkBuilder A (⟨vs.map fun p => ⟨p.1, true, p.2⟩⟩ : Migrations E)
              : ConnectionBuilder E).app_id } : Db) with foreign_keys := true }
        rfl hcase
      rw [hr1]
      exact ⟨hk.1, hk.2.1, hk.2.2.trans hcase.symm⟩
    · -- latest below the stored version: contradicts the successful first pass
      rw [setup_new, setupIdentified_out_of_date _ _ t latest ran hloop hcase] at hfirst
      cases hfirst

/-- The registry produced by registering versions 1 then 2. -/
def reg12 : Migrations Unit := ⟨[⟨1, true, okMig⟩, ⟨2, true, okMig⟩]⟩

/-- Witness for C6: versions 1 then 2 under tag 5 on a fresh database; the
second pass succeeds, runs nothing and keeps the version. -/
theorem reopen_same_registry_applies_nothing_witness :
    ((mkBuilder 5 reg12).setup ((mkBuilder 5 reg12).setup freshDb true).db false).outcome
      = .ok ()
    ∧ ((mkBuilder 5 reg12).setup ((mkBuilder 5 reg12).setup freshDb true).db false).ran = []
    ∧ ((mkBuilder 5 reg12).setup
        ((mkBuilder 5 reg12).setup freshDb true).db false).db.user_version
      = ((mkBuilder 5 reg12).setup freshDb true).db.user_version :=
  reopen_same_registry_applies_nothing [(1, okMig), (2, okMig)] 5 reg12 freshDb rfl
    (by decide) (by decide) rfl rfl

end Sqliter

